import Mathlib

/-!
Verification of the Multilevel Switch Command Class codec, the node model and
the interview stages of the node-zwave-js driver core, by a shallow embedding
of the TypeScript sources into Lean.

Bytes are modelled as `Nat`; `Buffer.from` truncation is modelled explicitly
by `% 256`.  Fallible deserialization constructors are modelled as functions
into `Except ParseError _`, where `ParseError.malformedCC` stands for the
error raised by a failed `validatePayload` assertion.
-/

namespace ZWaveJS

/-- The error raised by a failed `validatePayload(condition)` assertion:
deserialization aborts with a `MalformedCC` error and no instance is built. -/
inductive ParseError where
  | malformedCC
deriving DecidableEq

deriving instance DecidableEq for Except

/-- Modelled from the spec: the repository's `values/Duration` module is not
included under `src/` (only re-exported by `packages/core/src/index.ts`).
The spec constrains durations only through the round-trip property
`parse(serialize(m)) = m`, so a duration is modelled by its single serialized
byte. -/
structure Duration where
  byte : Nat
deriving DecidableEq

/-- Modelled from the spec: `Duration.serializeSet` returns the one byte that
a set-type command appends for the duration. -/
def Duration.serializeSet (d : Duration) : Nat := d.byte

/-- Modelled from the spec: `Duration.parseSet` reads a duration byte of a
set-type frame; it never throws. -/
def Duration.parseSet (b : Nat) : Duration := ⟨b⟩

/-- Modelled from the spec: `Duration.parseReport` reads a duration byte of a
report-type frame; it never throws. -/
def Duration.parseReport (b : Nat) : Duration := ⟨b⟩

/-- A duration that can appear in a frame stores a single byte. -/
def Duration.WF (d : Duration) : Prop := d.byte < 256

instance (d : Duration) : Decidable d.WF := by unfold Duration.WF; infer_instance

/-- `MultilevelSwitchCCSet`: fields `targetValue` and optional `duration`
(TypeScript class `MultilevelSwitchCCSet`). -/
structure MultilevelSwitchCCSet where
  targetValue : Nat
  duration : Option Duration
deriving DecidableEq

namespace MultilevelSwitchCCSet

/-- `MultilevelSwitchCCSet.serialize`: payload `[targetValue]`, and when
`version >= 2 && duration` one more byte `duration.serializeSet()`; the
`Buffer.from` conversion truncates every entry to a byte. -/
def serialize (version : Nat) (cc : MultilevelSwitchCCSet) : List Nat :=
  ([cc.targetValue] ++
    (if 2 ≤ version then
      match cc.duration with
      | some d => [d.serializeSet]
      | none => []
    else [])).map (· % 256)

/-- The deserialization branch of the `MultilevelSwitchCCSet` constructor:
`validatePayload(payload.length >= 1)`, `targetValue = payload[0]`, and when
`payload.length >= 2` also `duration = Duration.parseReport(payload[1])`. -/
def parse (payload : List Nat) : Except ParseError MultilevelSwitchCCSet :=
  if 1 ≤ payload.length then
    .ok { targetValue := payload.getD 0 0
          duration :=
            if 2 ≤ payload.length then
              some (Duration.parseReport (payload.getD 1 0))
            else none }
  else .error .malformedCC

/-- An instance whose fields fit in bytes. -/
def WF (cc : MultilevelSwitchCCSet) : Prop :=
  cc.targetValue < 256 ∧ ∀ d, cc.duration = some d → d.WF

instance (cc : MultilevelSwitchCCSet) : Decidable cc.WF := by
  unfold WF; infer_instance

end MultilevelSwitchCCSet

/-- `LevelChangeDirection` from `lib/_Types`.  The module is not under `src/`;
the numeric values are modelled from the deserialization code in `src`
(`direction ? "down" : "up"`), which fixes `up = 0` and `down = 1`. -/
inductive LevelChangeDirection where
  | up
  | down
deriving DecidableEq

/-- The numeric value of a `LevelChangeDirection` member. -/
def LevelChangeDirection.toNat : LevelChangeDirection → Nat
  | .up => 0
  | .down => 1

/-- `MultilevelSwitchCCStartLevelChange`: fields `direction`,
`ignoreStartLevel`, `startLevel` and optional `duration`. -/
structure MultilevelSwitchCCStartLevelChange where
  direction : LevelChangeDirection
  ignoreStartLevel : Bool
  startLevel : Nat
  duration : Option Duration
deriving DecidableEq

namespace MultilevelSwitchCCStartLevelChange

/-- `MultilevelSwitchCCStartLevelChange.serialize`: the control byte puts
`LevelChangeDirection[direction]` in bit 6 and `ignoreStartLevel` in bit 5
(`0b0010_0000`); payload `[controlByte, startLevel]` plus, when
`version >= 2 && duration`, the byte `duration.serializeSet()`. -/
def serialize (version : Nat) (cc : MultilevelSwitchCCStartLevelChange) :
    List Nat :=
  let controlByte :=
    (cc.direction.toNat <<< 6) ||| (if cc.ignoreStartLevel then 32 else 0)
  ([controlByte, cc.startLevel] ++
    (if 2 ≤ version then
      match cc.duration with
      | some d => [d.serializeSet]
      | none => []
    else [])).map (· % 256)

/-- The deserialization branch of the `MultilevelSwitchCCStartLevelChange`
constructor: `validatePayload(payload.length >= 2)`, `ignoreStartLevel` from
bit 5 of `payload[0]`, `direction` from bit 6 (`1` means `"down"`),
`startLevel = payload[1]`, and when `payload.length >= 3` also
`duration = Duration.parseSet(payload[2])`. -/
def parse (payload : List Nat) :
    Except ParseError MultilevelSwitchCCStartLevelChange :=
  if 2 ≤ payload.length then
    let b0 := payload.getD 0 0
    .ok { ignoreStartLevel := ((b0 &&& 32) >>> 5) ≠ 0
          direction :=
            if (b0 &&& 64) >>> 6 ≠ 0 then .down else .up
          startLevel := payload.getD 1 0
          duration :=
            if 3 ≤ payload.length then
              some (Duration.parseSet (payload.getD 2 0))
            else none }
  else .error .malformedCC

/-- An instance whose fields fit in bytes. -/
def WF (cc : MultilevelSwitchCCStartLevelChange) : Prop :=
  cc.startLevel < 256 ∧ ∀ d, cc.duration = some d → d.WF

instance (cc : MultilevelSwitchCCStartLevelChange) : Decidable cc.WF := by
  unfold WF; infer_instance

end MultilevelSwitchCCStartLevelChange

/-- `MultilevelSwitchCCSupportedReport`: only the primary `switchType` is kept. -/
structure MultilevelSwitchCCSupportedReport where
  switchType : Nat
deriving DecidableEq

namespace MultilevelSwitchCCSupportedReport

/-- The `MultilevelSwitchCCSupportedReport` constructor:
`validatePayload(payload.length >= 1)` and
`switchType = payload[0] & 0b11111`. -/
def parse (payload : List Nat) :
    Except ParseError MultilevelSwitchCCSupportedReport :=
  if 1 ≤ payload.length then
    .ok { switchType := payload.getD 0 0 &&& 31 }
  else .error .malformedCC

end MultilevelSwitchCCSupportedReport

/-- Modelled from the spec: `parseMaybeNumber` of `@zwave-js/core` is not under
`src/`; it decodes a level byte and never throws, returning `none` for a value
it does not understand.  Levels 0–99 are literal, 255 means the maximum level
and 254 an unknown level. -/
def parseMaybeNumber (b : Nat) : Option Nat :=
  if b ≤ 99 then some b
  else if b = 255 then some 99
  else if b = 254 then some 254
  else none

/-- Modelled from the spec: `parseNumber` of `@zwave-js/core` is not under
`src/`; like `parseMaybeNumber` but without the unknown marker. -/
def parseNumber (b : Nat) : Option Nat :=
  if b ≤ 99 then some b
  else if b = 255 then some 99
  else none

/-- `MultilevelSwitchCCReport`: `currentValue` plus, at version ≥ 4,
`targetValue` and `duration`. -/
structure MultilevelSwitchCCReport where
  currentValue : Option Nat
  targetValue : Option Nat
  duration : Option Duration
deriving DecidableEq

namespace MultilevelSwitchCCReport

/-- The `MultilevelSwitchCCReport` constructor:
`validatePayload(payload.length >= 1)`,
`currentValue = parseMaybeNumber(payload[0])`, and when `version >= 4` and
`payload.length >= 3` also `targetValue = parseNumber(payload[1])` and
`duration = Duration.parseReport(payload[2])`. -/
def parse (version : Nat) (payload : List Nat) :
    Except ParseError MultilevelSwitchCCReport :=
  if 1 ≤ payload.length then
    .ok { currentValue := parseMaybeNumber (payload.getD 0 0)
          targetValue :=
            if 4 ≤ version ∧ 3 ≤ payload.length then
              parseNumber (payload.getD 1 0)
            else none
          duration :=
            if 4 ≤ version ∧ 3 ≤ payload.length then
              some (Duration.parseReport (payload.getD 2 0))
            else none }
  else .error .malformedCC

end MultilevelSwitchCCReport

/-! ## InterviewStage -/

/-- The `InterviewStage` enum declared in the node module: 19 members with
consecutive numeric values 0–18. -/
inductive InterviewStage where
  | None
  | ProtocolInfo
  | Probe
  | WakeUp
  | ManufacturerSpecific1
  | NodeInfo
  | NodePlusInfo
  | SecurityReport
  | ManufacturerSpecific2
  | Versions
  | Instances
  | Static
  | CacheLoad
  | Associations
  | Neighbors
  | Session
  | Dynamic
  | Configuration
  | Complete
deriving DecidableEq, Fintype

namespace InterviewStage

/-- The numeric value assigned to each `InterviewStage` member. -/
def toNat : InterviewStage → Nat
  | .None => 0
  | .ProtocolInfo => 1
  | .Probe => 2
  | .WakeUp => 3
  | .ManufacturerSpecific1 => 4
  | .NodeInfo => 5
  | .NodePlusInfo => 6
  | .SecurityReport => 7
  | .ManufacturerSpecific2 => 8
  | .Versions => 9
  | .Instances => 10
  | .Static => 11
  | .CacheLoad => 12
  | .Associations => 13
  | .Neighbors => 14
  | .Session => 15
  | .Dynamic => 16
  | .Configuration => 17
  | .Complete => 18

/-- The member name of each `InterviewStage` value, as declared. -/
def name : InterviewStage → String
  | .None => "None"
  | .ProtocolInfo => "ProtocolInfo"
  | .Probe => "Probe"
  | .WakeUp => "WakeUp"
  | .ManufacturerSpecific1 => "ManufacturerSpecific1"
  | .NodeInfo => "NodeInfo"
  | .NodePlusInfo => "NodePlusInfo"
  | .SecurityReport => "SecurityReport"
  | .ManufacturerSpecific2 => "ManufacturerSpecific2"
  | .Versions => "Versions"
  | .Instances => "Instances"
  | .Static => "Static"
  | .CacheLoad => "CacheLoad"
  | .Associations => "Associations"
  | .Neighbors => "Neighbors"
  | .Session => "Session"
  | .Dynamic => "Dynamic"
  | .Configuration => "Configuration"
  | .Complete => "Complete"

end InterviewStage

/-- All `InterviewStage` members in declaration order. -/
def allInterviewStages : List InterviewStage :=
  [.None, .ProtocolInfo, .Probe, .WakeUp, .ManufacturerSpecific1, .NodeInfo,
   .NodePlusInfo, .SecurityReport, .ManufacturerSpecific2, .Versions,
   .Instances, .Static, .CacheLoad, .Associations, .Neighbors, .Session,
   .Dynamic, .Configuration, .Complete]

/-- The declared member names of the `InterviewStage` enum, in order. -/
def interviewStageNames : List String :=
  allInterviewStages.map InterviewStage.name

/-- Modelled from the spec: the body of `ZWaveNode.interview` is not under
`src/` (only its declaration is).  Per the spec, stages execute in enum order
and a driver restart resumes at the first incomplete stage; the persisted
`interviewStage` field records the last completed stage.  The stages still to
run after a restart are therefore exactly those with a strictly larger
numeric value, in order. -/
def remainingStages (lastCompleted : InterviewStage) : List InterviewStage :=
  allInterviewStages.filter (fun s => lastCompleted.toNat < s.toNat)

/-- Modelled from the spec: the stage at which a restarted interview resumes is
the first incomplete stage. -/
def resumeStage (lastCompleted : InterviewStage) : Option InterviewStage :=
  (remainingStages lastCompleted).head?

/-! ## ValueDB -/

/-- A value identifier: the endpoint index and the property name (the node id,
CC id and property key play no role in the claims below and are fixed). -/
structure ValueId where
  endpoint : Nat
  property : String
deriving DecidableEq

/-- Modelled from the spec: the `values/ValueDB` implementation is not under
`src/` (only re-exported by `packages/core/src/index.ts`).  Per the spec it
exposes `get/set/has/remove` and emits change events, and setting a value with
an unchanged payload does not emit.  The store is an association list, most
recent entry first. -/
def ValueDB : Type := List (ValueId × Nat)

/-- Modelled from the spec: `ValueDB.getValue` returns the stored value. -/
def ValueDB.getValue (db : ValueDB) (id : ValueId) : Option Nat :=
  (db.find? (fun e => e.1 = id)).map (·.2)

/-- Modelled from the spec: `ValueDB.setValue` stores a value and returns the
new store together with the number of change events emitted: none when the
payload is unchanged, one otherwise. -/
def ValueDB.setValue (db : ValueDB) (id : ValueId) (v : Nat) :
    ValueDB × Nat :=
  if db.getValue id = some v then (db, 0) else ((id, v) :: db, 1)

/-! ## Node state -/

/-- The observable flags of a `ZWaveNode` relevant to the claims. -/
structure ZWaveNodeState where
  isListening : Bool
  isFrequentListening : Bool
  isRouting : Bool
  interviewStage : InterviewStage
deriving DecidableEq

/-- The protocol-capability flags returned by `GetNodeProtocolInfo`. -/
structure ProtocolInfoResponse where
  listening : Bool
  frequentListening : Bool
  routing : Bool
deriving DecidableEq

/-- Modelled from the spec: the body of `ZWaveNode.queryProtocolInfo` is not
under `src/` (only its declaration is).  The spec states the node invariant
`isListening ⇒ ¬isFrequentListening` and describes a frequently-listening
(FLiRS) node as a kind of non-listening node, so the frequent-listening flag
is only taken over for non-listening nodes. -/
def updateProtocolInfo (n : ZWaveNodeState) (r : ProtocolInfoResponse) :
    ZWaveNodeState :=
  { n with isListening := r.listening
           isFrequentListening := !r.listening && r.frequentListening
           isRouting := r.routing }

/-- The operations that mutate a node. -/
inductive NodeOp where
  | protocolInfo (r : ProtocolInfoResponse)
  | setStage (s : InterviewStage)
deriving DecidableEq

/-- Apply one mutation to a node. -/
def applyNodeOp (n : ZWaveNodeState) : NodeOp → ZWaveNodeState
  | .protocolInfo r => updateProtocolInfo n r
  | .setStage s => { n with interviewStage := s }

/-- A freshly constructed node: no capability is known yet and the interview
has not started. -/
def initialNodeState : ZWaveNodeState :=
  { isListening := false
    isFrequentListening := false
    isRouting := false
    interviewStage := .None }

/-- The node obtained by applying a sequence of mutations to a fresh node. -/
def runNodeOps (ops : List NodeOp) : ZWaveNodeState :=
  ops.foldl applyNodeOp initialNodeState

/-- A node state is reachable when some sequence of mutations produces it. -/
def ReachableNode (n : ZWaveNodeState) : Prop :=
  ∃ ops, runNodeOps ops = n

/-! ## Supervision -/

/-- `SupervisionStatus` of `@zwave-js/core`. -/
inductive SupervisionStatus where
  | noSupport
  | working
  | fail
  | success
deriving DecidableEq

/-- Modelled from the spec: `isSupervisionResult` of `@zwave-js/core` is not
under `src/`; it recognises a supervision result, as opposed to the
`undefined` outcome of an unsupervised send. -/
def isSupervisionResult (r : Option SupervisionStatus) : Bool :=
  r.isSome

/-- Modelled from the spec: `supervisedCommandSucceeded` of `@zwave-js/core`
is not under `src/`; per the spec an optimistic update happens "if the
transaction is supervised and succeeded", so this holds exactly of a
supervision result with status `Success`. -/
def supervisedCommandSucceeded (r : Option SupervisionStatus) : Bool :=
  r == some .success

/-! ## Switch types and the derived level-change properties -/

/-- Split a character list at every occurrence of a separator. -/
def splitChars (sep : Char) : List Char → List (List Char)
  | [] => [[]]
  | c :: rest =>
    let r := splitChars sep rest
    if c = sep then [] :: r
    else
      match r with
      | [] => [[c]]
      | h :: t => (c :: h) :: t

/-- `switchTypeToActions`: splits a switch-type name into its two actions;
names without a `/` default to `SwitchType[0x02]`, i.e. `"Down/Up"`.  The
JavaScript `split("/", 2)` keeps the first two components. -/
def switchTypeToActions (switchType : String) : String × String :=
  let s := if switchType.toList.contains '/' then switchType else "Down/Up"
  let parts := (splitChars '/' s.toList).map String.mk
  (parts.getD 0 "", parts.getD 1 "")

/-- Modelled from the spec: the `SwitchType` enum lives in `lib/_Types`, which
is not under `src/`.  Its member names are the action pairs separated by `/`
(the spec names "up/down" and "open/close" as examples) plus a
`"not supported"` member 0; `src` fixes member `0x02` to be `"Down/Up"`. -/
def switchTypeKeys : List String :=
  ["not supported", "Off/On", "Down/Up", "Close/Open", "CCW/CW",
   "Left/Right", "Reverse/Forward", "Pull/Push"]

/-- `Object.keys(SwitchType)` on the compiled numeric enum: the numeric
reverse-mapping keys (array-index keys, listed first) followed by the member
names in declaration order. -/
def switchTypeObjectKeys : List String :=
  ["0", "1", "2", "3", "4", "5", "6", "7"] ++ switchTypeKeys

/-- `switchTypeProperties`: the keys containing a `/`, each split into its two
actions, flattened ("positive motions at odd indices, negative motions at
even indices"). -/
def switchTypeProperties : List String :=
  (switchTypeObjectKeys.filter (fun key => key.toList.contains '/')).flatMap
    (fun key => [(switchTypeToActions key).1, (switchTypeToActions key).2])

/-- The `levelChangeUp` dynamic value predicate: a string property whose index
in `switchTypeProperties` is odd (`indexOf` yields `-1` for non-members, which
satisfies neither parity test, hence the membership conjunct). -/
def levelChangeUpPred (property : String) : Bool :=
  switchTypeProperties.contains property &&
    switchTypeProperties.indexOf property % 2 == 1

/-- The `levelChangeDown` dynamic value predicate: a string property whose
index in `switchTypeProperties` is even. -/
def levelChangeDownPred (property : String) : Bool :=
  switchTypeProperties.contains property &&
    switchTypeProperties.indexOf property % 2 == 0

/-! ## The `SET_VALUE` implementation of `MultilevelSwitchCCAPI` -/

/-- Whether the API instance addresses a single node, a multicast group or the
broadcast address. -/
inductive CastType where
  | singlecast
  | multicast
  | broadcast
deriving DecidableEq

/-- An observable side effect of the `SET_VALUE` implementation. -/
inductive Effect where
  | setCurrentValue (endpoint : Nat) (value : Nat)
  | refreshCurrentValue
  | schedulePoll (property : String) (expectedValue : Option Nat)
  | setCurrentValueOnNode (nodeId : Nat) (endpoint : Nat) (value : Nat)
  | startLevelChange (direction : LevelChangeDirection)
      (ignoreStartLevel : Bool) (startLevel : Option Nat)
  | stopLevelChange
deriving DecidableEq

/-- The environment of one `SET_VALUE` call: the endpoint index, the cast
type, the driver option `disableOptimisticValueUpdate`, the interim
supervision status updates delivered to the `onUpdate` callback while the
`set` command is awaited, its final result, and (for multicast) the affected
node ids. -/
structure SetValueEnv where
  endpoint : Nat
  cast : CastType
  disableOptimisticValueUpdate : Bool
  statusUpdates : List SupervisionStatus
  result : Option SupervisionStatus
  affectedNodes : List Nat
deriving DecidableEq

/-- The `property === "targetValue"` branch of `SET_VALUE`, returning the
side effects in order.  For `value !== 255` the command is sent with
`requestStatusUpdates`, and each interim `Success` update writes
`currentValue` while an interim `Fail` refreshes it; afterwards
`shouldUpdateOptimistically` decides the optimistic write (only for
`0 <= value <= 99`), and a verification poll of `currentValue` is scheduled
unless the command was supervised and successful and the value is not 255. -/
def setValueTargetValue (env : SetValueEnv) (value : Nat) : List Effect :=
  let updateEffects :=
    if value ≠ 255 then
      env.statusUpdates.flatMap (fun u =>
        match u with
        | .success => [.setCurrentValue env.endpoint value]
        | .fail => [.refreshCurrentValue]
        | _ => [])
    else []
  let shouldUpdateOptimistically :=
    (!env.disableOptimisticValueUpdate && env.result == none) ||
      (isSupervisionResult env.result && env.result == some .success)
  let post :=
    match env.cast with
    | .singlecast =>
        (if shouldUpdateOptimistically && value ≤ 99 then
          [.setCurrentValue env.endpoint value]
        else []) ++
        (if !supervisedCommandSucceeded env.result || value == 255 then
          [.schedulePoll "currentValue"
            (if value == 255 then none else some value)]
        else [])
    | .multicast =>
        if shouldUpdateOptimistically && value ≤ 99 then
          env.affectedNodes.map
            (fun n => .setCurrentValueOnNode n env.endpoint value)
        else if value == 255 then
          [.schedulePoll "currentValue" none]
        else []
    | .broadcast => []
  updateEffects ++ post

/-- The value passed to `SET_VALUE`. -/
inductive CCValue where
  | num (n : Nat)
  | bool (b : Bool)
  | other
deriving DecidableEq

/-- The outcome of a `SET_VALUE` call. -/
inductive SetValueOutcome where
  | effects (l : List Effect)
  | wrongValueType
  | unsupportedProperty
deriving DecidableEq

/-- The `[SET_VALUE]` implementation of `MultilevelSwitchCCAPI`:
`"restorePrevious"` is rewritten to `targetValue = 255` up front; the
`targetValue` branch requires a number; a switch-type property with a boolean
`true` starts a level change whose direction is `"down"` for even property
indices and `"up"` for odd ones, passing the stored `currentValue` as start
level with `ignoreStartLevel: true`; `false` stops the level change; any
other property is unsupported. -/
def SET_VALUE (env : SetValueEnv) (db : ValueDB) (property : String)
    (value : CCValue) : SetValueOutcome :=
  let pv : String × CCValue :=
    if property = "restorePrevious" then ("targetValue", .num 255)
    else (property, value)
  let property := pv.1
  let value := pv.2
  if property = "targetValue" then
    match value with
    | .num n => .effects (setValueTargetValue env n)
    | _ => .wrongValueType
  else if switchTypeProperties.contains property then
    match value with
    | .bool b =>
        if b then
          .effects [.startLevelChange
            (if switchTypeProperties.indexOf property % 2 == 0 then
              .down
            else .up)
            true
            (db.getValue ⟨env.endpoint, "currentValue"⟩)]
        else .effects [.stopLevelChange]
    | _ => .wrongValueType
  else .unsupportedProperty

/-- Apply one effect to the local ValueDB, returning the new store and the
number of change events emitted.  Only `setCurrentValue` touches this node's
store. -/
def applyEffect (db : ValueDB) : Effect → ValueDB × Nat
  | .setCurrentValue ep v => db.setValue ⟨ep, "currentValue"⟩ v
  | _ => (db, 0)

/-- Apply a list of effects in order, accumulating the emitted change
events. -/
def runEffects (db : ValueDB) : List Effect → ValueDB × Nat
  | [] => (db, 0)
  | e :: rest =>
    let r := applyEffect db e
    let r2 := runEffects r.1 rest
    (r2.1, r.2 + r2.2)

/-- The total number of change events emitted by two successive
`setValue(id, v)` calls with the same value. -/
def twoSetEvents (db : ValueDB) (id : ValueId) (v : Nat) : Nat :=
  ((db.setValue id v).1.setValue id v).2 + (db.setValue id v).2

/-- A concrete `SET_VALUE` environment: singlecast at the root endpoint,
optimistic updates enabled, one interim `Working` then `Success` update, and a
final supervision result `Success`. -/
def envSupervised : SetValueEnv :=
  { endpoint := 0
    cast := .singlecast
    disableOptimisticValueUpdate := false
    statusUpdates := [.working, .success]
    result := some .success
    affectedNodes := [] }

/-- A concrete unsupervised `SET_VALUE` environment: singlecast at the root
endpoint, optimistic updates enabled, no status updates, `undefined` result. -/
def envUnsupervised : SetValueEnv :=
  { endpoint := 0
    cast := .singlecast
    disableOptimisticValueUpdate := false
    statusUpdates := []
    result := none
    affectedNodes := [] }

/-- Every effect in the list is either a `setCurrentValue` of the same value
on the same endpoint, or a refresh. -/
def onlySetOrRefresh (ep v : Nat) (l : List Effect) : Prop :=
  ∀ e ∈ l, e = .setCurrentValue ep v ∨ e = .refreshCurrentValue

/-! ## Theorems -/

/-- C10: deserializing a `MultilevelSwitchCCSupportedReport` takes only the
low 5 bits of the first payload byte: for every first byte `b` the resulting
`switchType` is `b mod 32`, hence always below 32 and independent of the
upper bits of `b`. -/
theorem C10_supported_report_switch_type :
    ∀ (b : Nat) (rest : List Nat),
      MultilevelSwitchCCSupportedReport.parse (b :: rest) =
        .ok { switchType := b % 32 } ∧ b % 32 < 32 := by
  intro b rest
  refine ⟨?_, Nat.mod_lt _ (by norm_num)⟩
  have h31 : b &&& 31 = b % 32 := by
    simpa using Nat.and_pow_two_sub_one_eq_mod b 5
  simp [MultilevelSwitchCCSupportedReport.parse, h31]

/-- C3: each deserialization constructor of `MultilevelSwitchCC` rejects a
too-short payload with a `MalformedCC` error and no instance (`Set`, `Report`
and `SupportedReport` need at least 1 byte, `StartLevelChange` at least 2),
and succeeds on every payload of at least the minimum length. -/
theorem C3_validate_payload_min_length :
    ∀ (payload : List Nat) (version : Nat),
      (payload.length < 1 →
        MultilevelSwitchCCSet.parse payload = .error .malformedCC ∧
        MultilevelSwitchCCReport.parse version payload = .error .malformedCC ∧
        MultilevelSwitchCCSupportedReport.parse payload =
          .error .malformedCC) ∧
      (payload.length < 2 →
        MultilevelSwitchCCStartLevelChange.parse payload =
          .error .malformedCC) ∧
      (1 ≤ payload.length →
        (MultilevelSwitchCCSet.parse payload).isOk = true ∧
        (MultilevelSwitchCCReport.parse version payload).isOk = true ∧
        (MultilevelSwitchCCSupportedReport.parse payload).isOk = true) ∧
      (2 ≤ payload.length →
        (MultilevelSwitchCCStartLevelChange.parse payload).isOk = true) := by
  intro payload version
  refine ⟨fun h => ?_, fun h => ?_, fun h => ?_, fun h => ?_⟩
  · refine ⟨?_, ?_, ?_⟩ <;>
      simp [MultilevelSwitchCCSet.parse, MultilevelSwitchCCReport.parse,
        MultilevelSwitchCCSupportedReport.parse, Nat.not_le.mpr h]
  · simp [MultilevelSwitchCCStartLevelChange.parse]
    omega
  · refine ⟨?_, ?_, ?_⟩ <;>
      simp [MultilevelSwitchCCSet.parse, MultilevelSwitchCCReport.parse,
        MultilevelSwitchCCSupportedReport.parse, h, Except.isOk, Except.toBool]
  · simp [MultilevelSwitchCCStartLevelChange.parse, h, Except.isOk, Except.toBool]

/-- C3 witness: concrete payloads at both sides of each bound. -/
theorem C3_witness :
    ([] : List Nat).length < 1 ∧
    MultilevelSwitchCCSet.parse [] = .error .malformedCC ∧
    [1].length < 2 ∧
    MultilevelSwitchCCStartLevelChange.parse [1] = .error .malformedCC ∧
    1 ≤ [7].length ∧
    (MultilevelSwitchCCSet.parse [7]).isOk = true ∧
    2 ≤ [96, 3].length ∧
    (MultilevelSwitchCCStartLevelChange.parse [96, 3]).isOk = true := by
  refine ⟨by decide, ((C3_validate_payload_min_length [] 1).1 (by decide)).1,
    by decide, (C3_validate_payload_min_length [1] 1).2.1 (by decide),
    by decide, ?_, by decide, ?_⟩
  · exact ((C3_validate_payload_min_length [7] 1).2.2.1 (by decide)).1
  · exact (C3_validate_payload_min_length [96, 3] 1).2.2.2 (by decide)

/-- C2 counterexample: the `InterviewStage` enumeration declared in the code
has no members named `CommandClasses`, `Endpoints` or `Cache`, so the spec's
nine-stage chain `None < ProtocolInfo < NodeInfo < CommandClasses < Endpoints
< Static < Cache < Dynamic < Complete` does not exist in the code. -/
theorem C2_counterexample :
    "CommandClasses" ∉ interviewStageNames ∧
    "Endpoints" ∉ interviewStageNames ∧
    "Cache" ∉ interviewStageNames := by decide

/-- C2 (amended): the `InterviewStage` enumeration has exactly the nineteen
declared members `None, ProtocolInfo, Probe, WakeUp, ManufacturerSpecific1,
NodeInfo, NodePlusInfo, SecurityReport, ManufacturerSpecific2, Versions,
Instances, Static, CacheLoad, Associations, Neighbors, Session, Dynamic,
Configuration, Complete`, their numeric values strictly increase in this
order, and in particular the sub-chain `None < ProtocolInfo < NodeInfo <
Static < Dynamic < Complete` of the stages shared with the spec holds. -/
theorem C2_stage_order :
    interviewStageNames =
      ["None", "ProtocolInfo", "Probe", "WakeUp", "ManufacturerSpecific1",
       "NodeInfo", "NodePlusInfo", "SecurityReport", "ManufacturerSpecific2",
       "Versions", "Instances", "Static", "CacheLoad", "Associations",
       "Neighbors", "Session", "Dynamic", "Configuration", "Complete"] ∧
    allInterviewStages.map InterviewStage.toNat =
      [0, 1, 2, 3, 4, 5, 6, 7, 8, 9, 10, 11, 12, 13, 14, 15, 16, 17, 18] ∧
    List.Chain' (fun a b => a.toNat < b.toNat) allInterviewStages ∧
    (∀ s : InterviewStage, s ∈ allInterviewStages) ∧
    InterviewStage.None.toNat < InterviewStage.ProtocolInfo.toNat ∧
    InterviewStage.ProtocolInfo.toNat < InterviewStage.NodeInfo.toNat ∧
    InterviewStage.NodeInfo.toNat < InterviewStage.Static.toNat ∧
    InterviewStage.Static.toNat < InterviewStage.Dynamic.toNat ∧
    InterviewStage.Dynamic.toNat < InterviewStage.Complete.toNat := by
  refine ⟨by decide, by decide, ?_, ?_, by decide, by decide, by decide,
    by decide, by decide⟩
  · norm_num [allInterviewStages, List.chain'_cons, InterviewStage.toNat]
  · intro s; cases s <;> simp [allInterviewStages]

/-- C5 counterexample: for a persisted `interviewStage = NodeInfo` the
interview resumes at `NodePlusInfo`, and no stage named `CommandClasses`
exists, so it cannot resume at `CommandClasses` as claimed. -/
theorem C5_counterexample :
    resumeStage .NodeInfo = some .NodePlusInfo ∧
    resumeStage .NodeInfo ≠ none ∧
    "CommandClasses" ∉ interviewStageNames := by decide

/-- C5 (amended): on restart with persisted stage `NodeInfo` the interview
resumes at `NodePlusInfo` — the first stage after `NodeInfo` in the code's
enum — and never re-runs `ProtocolInfo`; in general the remaining stages are
exactly those following the persisted one, executed in increasing stage
order. -/
theorem C5_interview_resume :
    resumeStage .NodeInfo = some .NodePlusInfo ∧
    InterviewStage.ProtocolInfo ∉ remainingStages .NodeInfo ∧
    (∀ s : InterviewStage,
      List.Chain' (fun a b => a.toNat < b.toNat) (remainingStages s)) ∧
    (∀ s t : InterviewStage,
      t ∈ remainingStages s ↔ s.toNat < t.toNat) := by
  have hchain :
      List.Chain' (fun a b : InterviewStage => a.toNat < b.toNat)
        allInterviewStages := by
    norm_num [allInterviewStages, List.chain'_cons, InterviewStage.toNat]
  have hmem : ∀ s : InterviewStage, s ∈ allInterviewStages := by
    intro s; cases s <;> simp [allInterviewStages]
  haveI : IsTrans InterviewStage (fun a b => a.toNat < b.toNat) :=
    ⟨fun _ _ _ h1 h2 => h1.trans h2⟩
  refine ⟨by decide, by decide, ?_, ?_⟩
  · intro s
    exact hchain.sublist (List.filter_sublist _)
  · intro s t
    simp [remainingStages, List.mem_filter, hmem]

/-- The listening invariant is preserved by any sequence of node mutations. -/
theorem nodeInvariant_foldl (ops : List NodeOp) (s : ZWaveNodeState)
    (h : s.isListening = true → s.isFrequentListening = false) :
    (ops.foldl applyNodeOp s).isListening = true →
      (ops.foldl applyNodeOp s).isFrequentListening = false := by
  induction ops generalizing s with
  | nil => exact h
  | cons op rest ih =>
    refine ih (applyNodeOp s op) ?_
    cases op with
    | protocolInfo r =>
      intro hl
      simp [applyNodeOp, updateProtocolInfo] at hl ⊢
      simp [hl]
    | setStage st => exact h

/-- C6: in every reachable `ZWaveNode` state — after every sequence of
node-mutating operations — `isListening` implies `¬isFrequentListening`. -/
theorem C6_listening_invariant :
    ∀ n : ZWaveNodeState, ReachableNode n → n.isListening = true →
      n.isFrequentListening = false := by
  rintro n ⟨ops, rfl⟩
  exact nodeInvariant_foldl ops initialNodeState (by simp [initialNodeState])

/-- C6 witness: the node reached by a protocol-info update reporting both the
listening and the frequent-listening capability is listening and not
frequently listening. -/
theorem C6_witness :
    ReachableNode (runNodeOps [.protocolInfo ⟨true, true, false⟩]) ∧
    (runNodeOps [.protocolInfo ⟨true, true, false⟩]).isListening = true ∧
    (runNodeOps [.protocolInfo ⟨true, true, false⟩]).isFrequentListening =
      false :=
  ⟨⟨_, rfl⟩, by decide,
    C6_listening_invariant _ ⟨_, rfl⟩ (by decide)⟩

/-- After `setValue id v` the stored value at `id` is `v`. -/
theorem getValue_setValue (db : ValueDB) (id : ValueId) (v : Nat) :
    ((db.setValue id v).1).getValue id = some v := by
  unfold ValueDB.setValue
  split
  · assumption
  · simp [ValueDB.getValue, List.find?]

/-- C7 counterexample: when the store already holds `v` at `id`, two
successive `set(id, v)` calls emit zero change events, not exactly one. -/
theorem C7_counterexample :
    twoSetEvents [(⟨0, "currentValue"⟩, 5)] ⟨0, "currentValue"⟩ 5 ≠ 1 := by
  decide

/-- C7 (amended): two successive `set(id, v)` calls with equal `v` emit at
most one change event — the first emits one exactly when it changes the
stored value, the second never emits — so exactly one event is emitted
whenever the initially stored value differs from `v`. -/
theorem C7_set_idempotent :
    ∀ (db : ValueDB) (id : ValueId) (v : Nat),
      ((db.setValue id v).1.setValue id v).2 = 0 ∧
      (db.setValue id v).2 = (if db.getValue id = some v then 0 else 1) ∧
      twoSetEvents db id v ≤ 1 ∧
      (db.getValue id ≠ some v → twoSetEvents db id v = 1) := by
  intro db id v
  have h2 : ((db.setValue id v).1.setValue id v).2 = 0 := by
    have h := getValue_setValue db id v
    unfold ValueDB.setValue at h ⊢
    rw [if_pos h]
  have h1 : (db.setValue id v).2 =
      (if db.getValue id = some v then 0 else 1) := by
    unfold ValueDB.setValue
    split <;> simp
  refine ⟨h2, h1, ?_, ?_⟩
  · unfold twoSetEvents
    rw [h2, h1]
    split <;> simp
  · intro hne
    unfold twoSetEvents
    rw [h2, h1, if_neg hne]

/-- C7 witness: on an empty store, two successive sets of the same value emit
exactly one change event. -/
theorem C7_witness :
    ValueDB.getValue [] ⟨0, "currentValue"⟩ ≠ some 5 ∧
    twoSetEvents [] ⟨0, "currentValue"⟩ 5 = 1 :=
  ⟨by decide,
    (C7_set_idempotent [] ⟨0, "currentValue"⟩ 5).2.2.2 (by decide)⟩

/-- The interim `onUpdate` effects only write the target value or refresh. -/
theorem updates_onlySetOrRefresh (us : List SupervisionStatus) (ep v : Nat) :
    onlySetOrRefresh ep v (us.flatMap fun u =>
      match u with
      | .success => [Effect.setCurrentValue ep v]
      | .fail => [Effect.refreshCurrentValue]
      | _ => []) := by
  intro e he
  simp only [List.mem_flatMap] at he
  obtain ⟨u, -, he⟩ := he
  cases u <;> simp_all

/-- Running same-value sets and refreshes from a store already holding the
value changes nothing and emits nothing. -/
theorem runEffects_stable (ep v : Nat) (l : List Effect)
    (h : onlySetOrRefresh ep v l) :
    ∀ db : ValueDB, db.getValue ⟨ep, "currentValue"⟩ = some v →
      runEffects db l = (db, 0) := by
  induction l with
  | nil => intro db _; rfl
  | cons e rest ih =>
    intro db hdb
    have hrest : onlySetOrRefresh ep v rest :=
      fun x hx => h x (List.mem_cons_of_mem _ hx)
    have hrec := ih hrest db hdb
    rcases h e (List.mem_cons_self _ _) with he | he <;> subst he
    · simp [runEffects, applyEffect, ValueDB.setValue, hdb, hrec]
    · simp [runEffects, applyEffect, hrec]

/-- Running same-value sets and refreshes emits at most one change event, and
once a set occurred (or the value was already stored) the store holds the
value. -/
theorem runEffects_bound (ep v : Nat) (l : List Effect)
    (h : onlySetOrRefresh ep v l) :
    ∀ db : ValueDB, (runEffects db l).2 ≤ 1 ∧
      (Effect.setCurrentValue ep v ∈ l ∨
          db.getValue ⟨ep, "currentValue"⟩ = some v →
        (runEffects db l).1.getValue ⟨ep, "currentValue"⟩ = some v) := by
  induction l with
  | nil =>
    intro db
    refine ⟨by simp [runEffects], fun hd => ?_⟩
    rcases hd with hd | hd
    · simp at hd
    · simpa [runEffects] using hd
  | cons e rest ih =>
    intro db
    have hrest : onlySetOrRefresh ep v rest :=
      fun x hx => h x (List.mem_cons_of_mem _ hx)
    rcases h e (List.mem_cons_self _ _) with he | he <;> subst he
    · by_cases hdb : db.getValue ⟨ep, "currentValue"⟩ = some v
      · have hrec := ih hrest db
        refine ⟨?_, fun _ => ?_⟩
        · simpa [runEffects, applyEffect, ValueDB.setValue, hdb]
            using hrec.1
        · have := hrec.2 (Or.inr hdb)
          simpa [runEffects, applyEffect, ValueDB.setValue, hdb] using this
      · have hnew : (ValueDB.setValue db ⟨ep, "currentValue"⟩ v).1.getValue
            ⟨ep, "currentValue"⟩ = some v := getValue_setValue db _ v
        have hstable := runEffects_stable ep v rest hrest _ hnew
        have hset : ValueDB.setValue db ⟨ep, "currentValue"⟩ v =
            ((⟨ep, "currentValue"⟩, v) :: db, 1) := by
          unfold ValueDB.setValue
          rw [if_neg hdb]
        refine ⟨?_, fun _ => ?_⟩
        · simp [runEffects, applyEffect, hset, hstable]
          have : ((⟨ep, "currentValue"⟩, v) :: db : ValueDB) =
              (ValueDB.setValue db ⟨ep, "currentValue"⟩ v).1 := by
            rw [hset]
          rw [this, runEffects_stable ep v rest hrest _ hnew]
        · simp only [runEffects, applyEffect]
          have : ((⟨ep, "currentValue"⟩, v) :: db : ValueDB) =
              (ValueDB.setValue db ⟨ep, "currentValue"⟩ v).1 := by
            rw [hset]
          rw [show (ValueDB.setValue db ⟨ep, "currentValue"⟩ v) =
              ((⟨ep, "currentValue"⟩, v) :: db, 1) from hset]
          rw [this, runEffects_stable ep v rest hrest _ hnew]
          exact hnew
    · have hrec := ih hrest db
      refine ⟨?_, fun hd => ?_⟩
      · simpa [runEffects, applyEffect] using hrec.1
      · have : Effect.setCurrentValue ep v ∈ rest ∨
            db.getValue ⟨ep, "currentValue"⟩ = some v := by
          rcases hd with hd | hd
          · rcases List.mem_cons.mp hd with hh | hh
            · exact absurd hh (by simp)
            · exact Or.inl hh
          · exact Or.inr hd
        simpa [runEffects, applyEffect] using hrec.2 this

/-- C4: for a singlecast Multilevel Switch set of `targetValue` to 80 whose
supervised command returns `Success`, the `currentValue` entry is set to 80
with at most one change event and no verification poll is scheduled; when the
command is not supervised-and-successful, or the value is 255, a verification
poll of `currentValue` is scheduled instead. -/
theorem C4_supervised_set :
    ∀ (env : SetValueEnv) (db : ValueDB),
      env.cast = .singlecast →
      (env.result = some .success →
        (∀ p ev, Effect.schedulePoll p ev ∉ setValueTargetValue env 80) ∧
        (runEffects db (setValueTargetValue env 80)).2 ≤ 1 ∧
        (runEffects db (setValueTargetValue env 80)).1.getValue
          ⟨env.endpoint, "currentValue"⟩ = some 80) ∧
      (∀ value : Nat,
        supervisedCommandSucceeded env.result = false ∨ value = 255 →
        Effect.schedulePoll "currentValue"
            (if value == 255 then none else some value) ∈
          setValueTargetValue env value) := by
  intro env db hc
  constructor
  · intro hr
    have heff : setValueTargetValue env 80 =
        (env.statusUpdates.flatMap fun u =>
          match u with
          | .success => [Effect.setCurrentValue env.endpoint 80]
          | .fail => [Effect.refreshCurrentValue]
          | _ => []) ++ [Effect.setCurrentValue env.endpoint 80] := by
      simp [setValueTargetValue, hc, hr, supervisedCommandSucceeded,
        isSupervisionResult]
    have honly : onlySetOrRefresh env.endpoint 80
        (setValueTargetValue env 80) := by
      rw [heff]
      intro e he
      rcases List.mem_append.mp he with h | h
      · exact updates_onlySetOrRefresh env.statusUpdates env.endpoint 80 e h
      · left; simpa using h
    have hb := runEffects_bound env.endpoint 80 _ honly db
    refine ⟨?_, hb.1, hb.2 (Or.inl ?_)⟩
    · intro p ev hmem
      rcases honly _ hmem with h | h <;> simp at h
    · rw [heff]; simp
  · intro value hv
    have hcond : (!supervisedCommandSucceeded env.result ||
        value == 255) = true := by
      rcases hv with h | h
      · simp [h]
      · subst h; simp
    simp only [setValueTargetValue, hc, hcond, if_true]
    simp [List.mem_append]

/-- C4 witness: a concrete supervised-successful environment updates the store
to 80 with at most one event, and a concrete unsupervised set of 255
schedules the poll with no expected value. -/
theorem C4_witness :
    (runEffects [] (setValueTargetValue envSupervised 80)).2 ≤ 1 ∧
    (runEffects [] (setValueTargetValue envSupervised 80)).1.getValue
      ⟨0, "currentValue"⟩ = some 80 ∧
    Effect.schedulePoll "currentValue" none ∈
      setValueTargetValue envUnsupervised 255 := by
  have h1 := (C4_supervised_set envSupervised [] rfl).1 rfl
  have h2 := (C4_supervised_set envUnsupervised [] rfl).2 255 (Or.inr rfl)
  exact ⟨h1.2.1, h1.2.2, by simpa using h2⟩

/-- C9: `setValue` of `restorePrevious` behaves exactly like setting
`targetValue` to 255; a singlecast set of 255 never writes `currentValue`
(the optimistic update happens only for values 0–99) and always schedules a
verification poll of `currentValue` with no expected value. -/
theorem C9_restore_previous :
    ∀ (env : SetValueEnv) (db : ValueDB) (v : CCValue),
      SET_VALUE env db "restorePrevious" v =
        SET_VALUE env db "targetValue" (.num 255) ∧
      (env.cast = .singlecast →
        (∀ ep x, Effect.setCurrentValue ep x ∉ setValueTargetValue env 255) ∧
        Effect.schedulePoll "currentValue" none ∈
          setValueTargetValue env 255) ∧
      (env.statusUpdates = [] →
        ∀ (value ep x : Nat),
          Effect.setCurrentValue ep x ∈ setValueTargetValue env value →
            value ≤ 99) := by
  intro env db v
  refine ⟨rfl, fun hc => ?_, fun hup value ep x hmem => ?_⟩
  · have heff : setValueTargetValue env 255 =
        [Effect.schedulePoll "currentValue" none] := by
      simp [setValueTargetValue, hc, supervisedCommandSucceeded]
    rw [heff]
    constructor
    · intro ep x hmem
      simp at hmem
    · simp
  · cases hcast : env.cast <;>
      simp only [setValueTargetValue, hup, hcast, List.flatMap_nil,
        List.nil_append] at hmem
    · simp at hmem
      exact hmem.1.2
    · split_ifs at hmem <;> simp at hmem
    · simp at hmem

/-- C9 witness: the restorePrevious rewrite, the poll for 255 and the
optimistic update at 80 on concrete inputs. -/
theorem C9_witness :
    SET_VALUE envUnsupervised [] "restorePrevious" (.bool true) =
      SET_VALUE envUnsupervised [] "targetValue" (.num 255) ∧
    Effect.schedulePoll "currentValue" none ∈
      setValueTargetValue envUnsupervised 255 ∧
    (80 : Nat) ≤ 99 := by
  have h := C9_restore_previous envUnsupervised [] (.bool true)
  exact ⟨h.1, (h.2.1 rfl).2, h.2.2 rfl 80 0 80 (by decide)⟩

/-- C8: every switch-type key containing a `/` contributes its `down` action
at an even index and its `up` action at an odd index of
`switchTypeProperties`; the `levelChangeUp` predicate accepts exactly the
odd-indexed (up) names, `levelChangeDown` exactly the even-indexed (down)
ones, and `SET_VALUE` starts a level change with direction `down` exactly for
the even-indexed properties and `up` for the odd-indexed ones. -/
theorem C8_switch_property_parity :
    (∀ k ∈ switchTypeObjectKeys.filter (fun key => key.toList.contains '/'),
      switchTypeProperties.indexOf (switchTypeToActions k).1 % 2 = 0 ∧
      switchTypeProperties.indexOf (switchTypeToActions k).2 % 2 = 1) ∧
    (∀ p : String, levelChangeUpPred p = true ↔
      p ∈ ["On", "Up", "Open", "CW", "Right", "Forward", "Push"]) ∧
    (∀ p : String, levelChangeDownPred p = true ↔
      p ∈ ["Off", "Down", "Close", "CCW", "Left", "Reverse", "Pull"]) ∧
    (∀ (env : SetValueEnv) (db : ValueDB) (p : String),
      p ∈ ["Off", "Down", "Close", "CCW", "Left", "Reverse", "Pull"] →
        SET_VALUE env db p (.bool true) =
          .effects [.startLevelChange .down true
            (db.getValue ⟨env.endpoint, "currentValue"⟩)]) ∧
    (∀ (env : SetValueEnv) (db : ValueDB) (p : String),
      p ∈ ["On", "Up", "Open", "CW", "Right", "Forward", "Push"] →
        SET_VALUE env db p (.bool true) =
          .effects [.startLevelChange .up true
            (db.getValue ⟨env.endpoint, "currentValue"⟩)]) := by
  have hc : switchTypeProperties =
      ["Off", "On", "Down", "Up", "Close", "Open", "CCW", "CW",
       "Left", "Right", "Reverse", "Forward", "Pull", "Push"] := by decide
  refine ⟨by decide, ?_, ?_, ?_, ?_⟩
  · intro p
    by_cases hp : p ∈ switchTypeProperties
    · rw [hc] at hp
      fin_cases hp <;> decide
    · have hb : switchTypeProperties.contains p = false := by simpa using hp
      simp only [levelChangeUpPred, hb, Bool.false_and]
      constructor
      · intro h; cases h
      · intro h
        exact absurd (show p ∈ switchTypeProperties by
          rw [hc]; fin_cases h <;> decide) hp
  · intro p
    by_cases hp : p ∈ switchTypeProperties
    · rw [hc] at hp
      fin_cases hp <;> decide
    · have hb : switchTypeProperties.contains p = false := by simpa using hp
      simp only [levelChangeDownPred, hb, Bool.false_and]
      constructor
      · intro h; cases h
      · intro h
        exact absurd (show p ∈ switchTypeProperties by
          rw [hc]; fin_cases h <;> decide) hp
  · intro env db p hp
    fin_cases hp <;> rfl
  · intro env db p hp
    fin_cases hp <;> rfl

/-- C8 witness: the predicates and the start-level-change direction at the
concrete properties "Up" and "Down". -/
theorem C8_witness :
    levelChangeUpPred "Up" = true ∧
    levelChangeDownPred "Down" = true ∧
    SET_VALUE envUnsupervised [] "Down" (.bool true) =
      .effects [.startLevelChange .down true
        (ValueDB.getValue [] ⟨0, "currentValue"⟩)] ∧
    SET_VALUE envUnsupervised [] "Up" (.bool true) =
      .effects [.startLevelChange .up true
        (ValueDB.getValue [] ⟨0, "currentValue"⟩)] := by
  have h := C8_switch_property_parity
  exact ⟨(h.2.1 "Up").mpr (by decide), (h.2.2.1 "Down").mpr (by decide),
    h.2.2.2.1 envUnsupervised [] "Down" (by decide),
    h.2.2.2.2 envUnsupervised [] "Up" (by decide)⟩

/-- Round-trip for `MultilevelSwitchCCSet`: parsing the serialized payload
recovers the instance, provided the fields are bytes and no duration is set
below version 2 (where the duration byte is not emitted). -/
theorem set_round_trip (version : Nat) (cc : MultilevelSwitchCCSet)
    (hWF : cc.WF) (hd : version < 2 → cc.duration = none) :
    MultilevelSwitchCCSet.parse (cc.serialize version) = .ok cc := by
  obtain ⟨tv, dur⟩ := cc
  obtain ⟨h1, h2⟩ := hWF
  simp only at h1
  by_cases hv : 2 ≤ version
  · cases dur with
    | none =>
      simp [MultilevelSwitchCCSet.serialize, MultilevelSwitchCCSet.parse,
        hv, Nat.mod_eq_of_lt h1]
    | some d =>
      have hdWF : d.byte < 256 := h2 d rfl
      simp [MultilevelSwitchCCSet.serialize, MultilevelSwitchCCSet.parse,
        hv, Nat.mod_eq_of_lt h1, Nat.mod_eq_of_lt hdWF,
        Duration.parseReport, Duration.serializeSet]
  · have hd' := hd (by omega)
    simp only at hd'
    subst hd'
    simp [MultilevelSwitchCCSet.serialize, MultilevelSwitchCCSet.parse,
      hv, Nat.mod_eq_of_lt h1]

/-- Round-trip for `MultilevelSwitchCCStartLevelChange`: parsing the
serialized payload recovers the instance (direction from bit 6,
`ignoreStartLevel` from bit 5, `startLevel` from the second byte), provided
the fields are bytes and no duration is set below version 2. -/
theorem start_level_change_round_trip (version : Nat)
    (cc : MultilevelSwitchCCStartLevelChange) (hWF : cc.WF)
    (hd : version < 2 → cc.duration = none) :
    MultilevelSwitchCCStartLevelChange.parse (cc.serialize version) =
      .ok cc := by
  obtain ⟨dir, ign, sl, dur⟩ := cc
  obtain ⟨h1, h2⟩ := hWF
  simp only at h1
  by_cases hv : 2 ≤ version
  · cases dur with
    | none =>
      cases dir <;> cases ign <;>
        simp [MultilevelSwitchCCStartLevelChange.serialize,
          MultilevelSwitchCCStartLevelChange.parse, hv,
          Nat.mod_eq_of_lt h1, LevelChangeDirection.toNat] <;> decide
    | some d =>
      have hdWF : d.byte < 256 := h2 d rfl
      cases dir <;> cases ign <;>
        simp [MultilevelSwitchCCStartLevelChange.serialize,
          MultilevelSwitchCCStartLevelChange.parse, hv,
          Nat.mod_eq_of_lt h1, Nat.mod_eq_of_lt hdWF,
          LevelChangeDirection.toNat, Duration.parseSet,
          Duration.serializeSet] <;> decide
  · have hd' := hd (by omega)
    simp only at hd'
    subst hd'
    cases dir <;> cases ign <;>
      simp [MultilevelSwitchCCStartLevelChange.serialize,
        MultilevelSwitchCCStartLevelChange.parse, hv,
        Nat.mod_eq_of_lt h1, LevelChangeDirection.toNat] <;> decide

/-- C1 counterexample: at implemented version 1, a `MultilevelSwitchCCSet`
with a duration set serializes without the duration byte, so parsing the
serialized bytes does not return an instance equal to the original. -/
theorem C1_counterexample :
    MultilevelSwitchCCSet.parse
        (MultilevelSwitchCCSet.serialize 1
          { targetValue := 5, duration := some ⟨17⟩ }) ≠
      .ok { targetValue := 5, duration := some ⟨17⟩ } := by decide

/-- C1 (amended): for every version 1–4 and every `Set` and
`StartLevelChange` instance with byte-valued fields whose duration is unset
whenever the version is below 2, parsing the serialized payload yields an
equal instance; the `Set` payload is `[targetValue]` plus one duration byte
when a duration is set at version ≥ 2, and the `StartLevelChange` payload is
`[controlByte, startLevel]` (direction in bit 6, `ignoreStartLevel` in bit 5)
plus an optional duration byte. -/
theorem C1_round_trip :
    ∀ (version : Nat) (s : MultilevelSwitchCCSet)
      (t : MultilevelSwitchCCStartLevelChange),
      1 ≤ version → version ≤ 4 → s.WF → t.WF →
      (version < 2 → s.duration = none ∧ t.duration = none) →
      MultilevelSwitchCCSet.parse (s.serialize version) = .ok s ∧
      MultilevelSwitchCCStartLevelChange.parse (t.serialize version) =
        .ok t ∧
      (∀ d, s.duration = some d → 2 ≤ version →
        s.serialize version = [s.targetValue, d.serializeSet]) ∧
      (s.duration = none → s.serialize version = [s.targetValue]) ∧
      (∀ d, t.duration = some d → 2 ≤ version →
        t.serialize version =
          [(t.direction.toNat <<< 6) |||
            (if t.ignoreStartLevel then 32 else 0),
           t.startLevel, d.serializeSet]) ∧
      (t.duration = none →
        t.serialize version =
          [(t.direction.toNat <<< 6) |||
            (if t.ignoreStartLevel then 32 else 0),
           t.startLevel]) := by
  intro version s t hv1 hv4 hsWF htWF hlow
  refine ⟨set_round_trip version s hsWF (fun h => (hlow h).1),
    start_level_change_round_trip version t htWF (fun h => (hlow h).2),
    ?_, ?_, ?_, ?_⟩
  · intro d hdur hv2
    have hb : s.targetValue < 256 := hsWF.1
    have hd : d.byte < 256 := hsWF.2 d hdur
    simp [MultilevelSwitchCCSet.serialize, hdur, hv2,
      Nat.mod_eq_of_lt hb, Nat.mod_eq_of_lt hd, Duration.serializeSet]
  · intro hdur
    have hb : s.targetValue < 256 := hsWF.1
    simp [MultilevelSwitchCCSet.serialize, hdur, Nat.mod_eq_of_lt hb]
  · intro d hdur hv2
    have hsl : t.startLevel < 256 := htWF.1
    have hd : d.byte < 256 := htWF.2 d hdur
    have hcb : (t.direction.toNat <<< 6) |||
        (if t.ignoreStartLevel then 32 else 0) < 256 := by
      cases t.direction <;> cases h : t.ignoreStartLevel <;>
        simp [LevelChangeDirection.toNat, h]
    simp [MultilevelSwitchCCStartLevelChange.serialize, hdur, hv2,
      Nat.mod_eq_of_lt hsl, Nat.mod_eq_of_lt hd, Nat.mod_eq_of_lt hcb,
      Duration.serializeSet]
  · intro hdur
    have hsl : t.startLevel < 256 := htWF.1
    have hcb : (t.direction.toNat <<< 6) |||
        (if t.ignoreStartLevel then 32 else 0) < 256 := by
      cases t.direction <;> cases h : t.ignoreStartLevel <;>
        simp [LevelChangeDirection.toNat, h]
    simp [MultilevelSwitchCCStartLevelChange.serialize, hdur,
      Nat.mod_eq_of_lt hsl, Nat.mod_eq_of_lt hcb]

/-- C1 witness: a concrete version-2 `Set` and `StartLevelChange` round-trip
with their expected payload shapes. -/
theorem C1_witness :
    MultilevelSwitchCCSet.parse
        (MultilevelSwitchCCSet.serialize 2
          { targetValue := 5, duration := some ⟨17⟩ }) =
      .ok { targetValue := 5, duration := some ⟨17⟩ } ∧
    MultilevelSwitchCCStartLevelChange.parse
        (MultilevelSwitchCCStartLevelChange.serialize 2
          { direction := .down, ignoreStartLevel := true, startLevel := 7,
            duration := some ⟨9⟩ }) =
      .ok { direction := .down, ignoreStartLevel := true, startLevel := 7,
            duration := some ⟨9⟩ } := by
  have h := C1_round_trip 2
    { targetValue := 5, duration := some ⟨17⟩ }
    { direction := .down, ignoreStartLevel := true, startLevel := 7,
      duration := some ⟨9⟩ }
    (by decide) (by decide) (by decide) (by decide) (by omega)
  exact ⟨h.1, h.2.1⟩

end ZWaveJS
